import Mathlib

/-!
# Verification of the Historical Events Research Assistant extension

A shallow embedding of the background service worker (session / trail state
machine, navigation trail recorder, command dispatcher) and of the content
script's frame-sampling, perceptual-hash and frame-capture code, together
with proofs about the session lifecycle, the trail invariants and the
frame-capture contract.

Conventions of the embedding:
* JavaScript strings are Lean `String`s; `null`/`undefined` string fields
  are `Option String` with `none` for the absent value.
* JavaScript truthiness on strings (`s || d`) is modelled by `jsOr`:
  `none` and the empty string are falsy.
* The persistent key-value store (`chrome.storage.local`) is modelled as a
  record `ExtState` holding the post-default values of every key the
  background worker uses, plus the in-memory `lastUrlByTab` map.
* Nondeterministic inputs of a single handler invocation (generated ids,
  the current wall-clock timestamp, outcomes of remote network calls) are
  packaged in an `Env` record passed to the handler; remote-call payloads
  sent to collaborators are out of scope per the interface boundary, only
  their success/failure outcome matters locally.
* A handler that throws is modelled by an `Except.error` result; every
  throw in the source occurs before any local storage write, so the state
  returned alongside an error is the unchanged input state.
-/

/-- JS `a || b` for an optional string: `none` and `""` are falsy. -/
def jsOr (a : Option String) (b : String) : String :=
  match a with
  | some s => if s = "" then b else s
  | none => b

/-- JS truthiness of an optional string value. -/
def jsTruthy (a : Option String) : Bool :=
  match a with
  | some s => s ≠ ""
  | none => false

/-- JS `s.startsWith(p)`: the characters of `p` are a prefix of those of
`s`. -/
def jsStartsWith (s p : String) : Bool :=
  p.data.isPrefixOf s.data

/-- A logged-in user, as returned by `loginUser` (fields `username, role`). -/
structure User where
  username : String
  role : String
deriving DecidableEq

/-- The kind of a trail entry: a recorded page visit, or a pause/resume
marker appended by `PAUSE_SESSION` / `RESUME_SESSION`. -/
inductive EntryKind where
  | page
  | pauseMarker
  | resumeMarker
deriving DecidableEq

/-- One entry of `hdb_current_trail`. Page entries carry `url = some u` and
a `fromUrl`; markers carry `url = none` (JS `null`) and no `fromUrl`. -/
structure TrailEntry where
  id : String
  kind : EntryKind
  url : Option String
  title : String
  favIconUrl : String
  timestamp : String
  fromUrl : Option String
deriving DecidableEq

/-- One entry of `hdb_captured_items`, as built by `CAPTURE_TEXT` /
`CAPTURE_URL`. -/
structure CaptureItem where
  id : String
  type : String
  text : String
  url : String
  pageTitle : String
  favIconUrl : String
  timecode : Option String
  timestamp : String
  saved : Bool
  savedEventId : Option String
deriving DecidableEq

/-- The local state of the background worker: every `hdb_*` storage key
(with its read-time default already applied) plus the in-memory
per-viewport navigation memory `lastUrlByTab` (tab id → last seen URL). -/
structure ExtState where
  hdb_ext_session : Option User
  hdb_session_active : Bool
  hdb_session_paused : Bool
  hdb_session_name : String
  hdb_current_trail : List TrailEntry
  hdb_captured_items : List CaptureItem
  lastUrlByTab : Nat → Option String

/-- The state right after installation: empty storage, empty memory. -/
def initialState : ExtState where
  hdb_ext_session := none
  hdb_session_active := false
  hdb_session_paused := false
  hdb_session_name := ""
  hdb_current_trail := []
  hdb_captured_items := []
  lastUrlByTab := fun _ => none

/-- Per-invocation oracle inputs of a handler: generated random ids
(`generateCaptureId` / `generateEventId` results), the generated session
name, the current timestamp, and the outcomes of external collaborator
calls (credential check, remote record store). -/
structure Env where
  genId : String
  genEventId : String
  genName : String
  now : String
  loginResult : Except String User
  remoteSessionSave : Except String String
  remoteEventSave : Except String String

/-- The closed set of commands handled by `handleMessage` (`msg.type`). -/
inductive Msg where
  | getState
  | login (username password : String)
  | logout
  | startSession (name : Option String)
  | renameSession (name : String)
  | endSession
  | captureText (text url pageTitle favIconUrl timecode : Option String)
  | captureUrl (url pageTitle favIconUrl : Option String)
  | deleteCaptured (id : String)
  | saveToDB (id : String)
  | pauseSession
  | resumeSession
  | clearTrail
deriving DecidableEq

/-- Success payloads returned by `handleMessage`. -/
inductive Resp where
  | okUnit
  | okUser (user : User)
  | okName (name : String)
  | okItem (item : CaptureItem)
  | okEnded (savedSession : Option String)
  | okSavedEvent (eventId : String) (event : String)
  | okState (session : Option User) (trail : List TrailEntry)
      (capturedItems : List CaptureItem) (sessionActive : Bool)
      (sessionName : String) (sessionPaused : Bool)
deriving DecidableEq

/-- The pause marker appended by `PAUSE_SESSION`. -/
def pauseMarkerEntry (env : Env) : TrailEntry where
  id := env.genId
  kind := .pauseMarker
  url := none
  title := "Session paused"
  favIconUrl := ""
  timestamp := env.now
  fromUrl := none

/-- The resume marker appended by `RESUME_SESSION`. -/
def resumeMarkerEntry (env : Env) : TrailEntry where
  id := env.genId
  kind := .resumeMarker
  url := none
  title := "Session resumed"
  favIconUrl := ""
  timestamp := env.now
  fromUrl := none

/-- The capture item built by `CAPTURE_TEXT`: type `video` iff a truthy
timecode is present, which is then stored (else `null`). -/
def captureTextItem (env : Env)
    (text url pageTitle favIconUrl timecode : Option String) : CaptureItem where
  id := env.genId
  type := if jsTruthy timecode then "video" else "text"
  text := jsOr text ""
  url := jsOr url ""
  pageTitle := jsOr pageTitle ""
  favIconUrl := jsOr favIconUrl ""
  timecode := if jsTruthy timecode then timecode else none
  timestamp := env.now
  saved := false
  savedEventId := none

/-- The capture item built by `CAPTURE_URL`: type `url`, text falls back
from the page title to the url. -/
def captureUrlItem (env : Env) (url pageTitle favIconUrl : Option String) :
    CaptureItem where
  id := env.genId
  type := "url"
  text := jsOr pageTitle (jsOr url "")
  url := jsOr url ""
  pageTitle := jsOr pageTitle ""
  favIconUrl := jsOr favIconUrl ""
  timecode := none
  timestamp := env.now
  saved := false
  savedEventId := none

/-- The message dispatcher `handleMessage` of the background worker.
Returns the response (success payload or thrown error message) together
with the local state after the call; every throw in the source happens
before any storage write, so an error result carries the input state
unchanged. -/
def handleMessage (env : Env) (msg : Msg) (s : ExtState) :
    Except String Resp × ExtState :=
  match msg with
  | .getState =>
      (.ok (.okState s.hdb_ext_session s.hdb_current_trail
        s.hdb_captured_items s.hdb_session_active s.hdb_session_name
        s.hdb_session_paused), s)
  | .login _ _ =>
      match env.loginResult with
      | .error e => (.error e, s)
      | .ok user => (.ok (.okUser user), { s with hdb_ext_session := some user })
  | .logout =>
      (.ok .okUnit,
        { s with
          hdb_ext_session := none
          hdb_session_active := false
          hdb_session_paused := false
          hdb_session_name := ""
          hdb_current_trail := []
          hdb_captured_items := []
          lastUrlByTab := fun _ => none })
  | .startSession name =>
      let n := jsOr name env.genName
      (.ok (.okName n),
        { s with
          hdb_session_active := true
          hdb_session_paused := false
          hdb_session_name := n
          hdb_current_trail := []
          hdb_captured_items := []
          lastUrlByTab := fun _ => none })
  | .renameSession name =>
      (.ok .okUnit, { s with hdb_session_name := name })
  | .endSession =>
      match s.hdb_ext_session with
      | none => (.error "Not logged in", s)
      | some _ =>
          let savedSession := env.remoteSessionSave.toOption
          (.ok (.okEnded savedSession),
            { s with
              hdb_session_active := false
              hdb_session_paused := false
              hdb_session_name := ""
              hdb_current_trail := []
              hdb_captured_items := []
              lastUrlByTab := fun _ => none })
  | .captureText text url pageTitle favIconUrl timecode =>
      let item := captureTextItem env text url pageTitle favIconUrl timecode
      (.ok (.okItem item),
        { s with hdb_captured_items := s.hdb_captured_items ++ [item] })
  | .captureUrl url pageTitle favIconUrl =>
      let item := captureUrlItem env url pageTitle favIconUrl
      (.ok (.okItem item),
        { s with hdb_captured_items := s.hdb_captured_items ++ [item] })
  | .deleteCaptured id =>
      (.ok .okUnit,
        { s with hdb_captured_items :=
            s.hdb_captured_items.filter (fun i => i.id ≠ id) })
  | .saveToDB id =>
      match s.hdb_ext_session with
      | none => (.error "Not logged in", s)
      | some _ =>
          match s.hdb_captured_items.find? (fun i => i.id = id) with
          | none => (.error "Capture item not found", s)
          | some _ =>
              match env.remoteEventSave with
              | .error e => (.error e, s)
              | .ok saved =>
                  (.ok (.okSavedEvent env.genEventId saved),
                    { s with hdb_captured_items :=
                        s.hdb_captured_items.map (fun i =>
                          if i.id = id then
                            { i with saved := true,
                                     savedEventId := some env.genEventId }
                          else i) })
  | .pauseSession =>
      if s.hdb_session_active then
        (.ok .okUnit,
          { s with
            hdb_session_paused := true
            hdb_current_trail := s.hdb_current_trail ++ [pauseMarkerEntry env] })
      else
        (.error "No active session to pause", s)
  | .resumeSession =>
      (.ok .okUnit,
        { s with
          hdb_session_paused := false
          hdb_current_trail := s.hdb_current_trail ++ [resumeMarkerEntry env]
          lastUrlByTab := fun _ => none })
  | .clearTrail =>
      (.ok .okUnit,
        { s with
          hdb_current_trail := []
          lastUrlByTab := fun _ => none })

/-- The page entry appended to the trail by the `chrome.tabs.onUpdated`
listener: title falls back to the url, the icon to the empty string, and
`fromUrl` is the previous per-viewport memory value for this tab. -/
def pageEntry (env : Env) (url : String) (title favIconUrl : Option String)
    (fromUrl : Option String) : TrailEntry where
  id := env.genId
  kind := .page
  url := some url
  title := jsOr title url
  favIconUrl := jsOr favIconUrl ""
  timestamp := env.now
  fromUrl := fromUrl

/-- The `chrome.tabs.onUpdated` listener (navigation trail recorder).
Skips incomplete loads, missing/internal-scheme URLs, and events while no
session is active or the session is paused; otherwise it updates the
per-viewport memory and appends a page entry unless the last trail entry
already carries this exact URL (back-to-back dedup). -/
def navUpdate (env : Env) (tabId : Nat) (statusComplete : Bool)
    (url : String) (title favIconUrl : Option String) (s : ExtState) :
    ExtState :=
  if ¬statusComplete ∨ url = "" then s
  else if jsStartsWith url "chrome://" ∨ jsStartsWith url "chrome-extension://" then s
  else if ¬s.hdb_session_active ∨ s.hdb_session_paused then s
  else
    let fromUrl := s.lastUrlByTab tabId
    let s1 := { s with lastUrlByTab := Function.update s.lastUrlByTab tabId (some url) }
    match s1.hdb_current_trail.getLast? with
    | some last =>
        if last.url = some url then s1
        else { s1 with hdb_current_trail :=
            s1.hdb_current_trail ++ [pageEntry env url title favIconUrl fromUrl] }
    | none =>
        { s1 with hdb_current_trail :=
            s1.hdb_current_trail ++ [pageEntry env url title favIconUrl fromUrl] }

/-- One atomic state change of the background worker: a dispatched command
(including ones that throw, which leave the state unchanged) or a
navigation event delivered to the `tabs.onUpdated` listener. -/
inductive Step : ExtState → ExtState → Prop where
  | msg (env : Env) (m : Msg) (s : ExtState) :
      Step s (handleMessage env m s).2
  | nav (env : Env) (tabId : Nat) (statusComplete : Bool) (url : String)
      (title favIconUrl : Option String) (s : ExtState) :
      Step s (navUpdate env tabId statusComplete url title favIconUrl s)

/-- States reachable from the post-installation state by any sequence of
commands and navigation events. -/
def Reachable (s : ExtState) : Prop :=
  Relation.ReflTransGen Step initialState s

/-!
## Content script: frame sampling, perceptual hash, capture orchestrator

Video times are rationals (JS numbers at the precision the code uses);
`Math.round` is floor of `x + 1/2` (half away from negative infinity).
-/

/-- JS `Math.round(t * 10) / 10`: round to one decimal place. -/
def jsRound10 (t : ℚ) : ℚ := (⌊t * 10 + 1 / 2⌋ : ℤ) / 10

/-- The sampling loop of `computeFrameTimestamps`:
`for (let t = startSecs; t < endSecs - 0.1; t += interval)` pushing
`Math.round(t*10)/10`. `fuel` bounds the iteration count; callers supply
enough fuel for the loop to terminate on its own condition. -/
def stampsLoop (endSecs interval : ℚ) : Nat → ℚ → List ℚ
  | 0, _ => []
  | fuel + 1, t =>
      if t < endSecs - 1 / 10 then jsRound10 t :: stampsLoop endSecs interval fuel (t + interval)
      else []

/-- JS `[...new Set(xs)]`: drop duplicates, keeping first occurrences. -/
def jsSetDedup (seen : List ℚ) : List ℚ → List ℚ
  | [] => []
  | x :: xs => if x ∈ seen then jsSetDedup seen xs else x :: jsSetDedup (x :: seen) xs

/-- `computeFrameTimestamps(startSecs, endSecs)`: duration under one second
returns just `[startSecs]`; otherwise sample at `clamp(duration/15, 1, 30)`
intervals up to `endSecs - 0.1`, append `endSecs`, and deduplicate.
Since the interval is at least 1, `⌈duration⌉ + 1` iterations of fuel are
enough for the loop's own exit condition to fire first. -/
def computeFrameTimestamps (startSecs endSecs : ℚ) : List ℚ :=
  let duration := max 0 (endSecs - startSecs)
  if duration < 1 then [startSecs]
  else
    let interval := max 1 (min 30 (duration / 15))
    let fuel := (⌈duration⌉).toNat + 1
    jsSetDedup [] (stampsLoop endSecs interval fuel startSecs ++ [endSecs])

/-- A sampled pixel's three color channels (bytes from `getImageData`). -/
structure Pixel where
  r : Nat
  g : Nat
  b : Nat
deriving DecidableEq

/-- The image sampled by `getFrameHash`: pixel lookup by coordinates,
`none` when `getImageData` throws for that position. -/
def SampleFn : Type := Nat → Nat → Option Pixel

/-- The value `getFrameHash` records for grid cell `(x, y)`: the sum of
the sampled pixel's channels shifted right by 2, or `0` when sampling
throws. -/
def cellValue (sample : SampleFn) (w h x y : Nat) : Nat :=
  match sample (x * w / 4) (y * h / 4) with
  | some px => (px.r + px.g + px.b) >>> 2
  | none => 0

/-- `getFrameHash(ctx, w, h)`: one value per cell of a 4×4 grid, row by
row (`y` outer, `x` inner). -/
def getFrameHash (sample : SampleFn) (w h : Nat) : List Nat :=
  (List.range 4).flatMap (fun y => (List.range 4).map (fun x => cellValue sample w h x y))

/-- `hashesAreSimilar(h1, h2)`: false on a missing hash or length
mismatch; otherwise at most 2 of the positions may differ by more
than 15. -/
def hashesAreSimilar (h1 h2 : Option (List Nat)) : Bool :=
  match h1, h2 with
  | some l1, some l2 =>
      if l1.length ≠ l2.length then false
      else (l1.zip l2).countP (fun p => 15 < max p.1 p.2 - min p.1 p.2) ≤ 2
  | _, _ => false

/-- A frame as produced by `captureVideoFrame`: time, formatted timecode,
rendered image data and perceptual hash. -/
structure Frame where
  time : ℚ
  timecode : String
  dataUrl : String
  hash : List Nat
deriving DecidableEq

/-- A frame as kept by `captureFramesForRange` (hash dropped). -/
structure KeptFrame where
  time : ℚ
  timecode : String
  dataUrl : String
deriving DecidableEq

/-- The playback state of the page's video element that
`captureFramesForRange` reads and mutates. -/
structure Video where
  currentTime : ℚ
  paused : Bool
deriving DecidableEq

/-- The capture oracle: what `captureVideoFrame` resolves with for a given
seek target — `none` models the 3.5s seek timeout or a canvas error. -/
def CaptureFn : Type := ℚ → Option Frame

/-- `captureVideoFrame(video, t)`: assigns `video.currentTime = t` and
resolves with the oracle's frame (or `null`). -/
def captureVideoFrame (capture : CaptureFn) (v : Video) (t : ℚ) :
    Option Frame × Video :=
  (capture t, { v with currentTime := t })

/-- The per-instant loop of `captureFramesForRange`: seek to each stamp,
keep the frame only when there is no previously kept hash or the new hash
is dissimilar to the last kept one. -/
def captureLoop (capture : CaptureFn) :
    List ℚ → Video → Option (List Nat) → List KeptFrame →
    List KeptFrame × Video
  | [], v, _, acc => (acc, v)
  | t :: ts, v, lastHash, acc =>
      let r := captureVideoFrame capture v t
      match r.1 with
      | some frame =>
          if lastHash = none ∨ ¬ hashesAreSimilar lastHash (some frame.hash) then
            captureLoop capture ts r.2 (some frame.hash)
              (acc ++ [{ time := frame.time, timecode := frame.timecode,
                         dataUrl := frame.dataUrl }])
          else
            captureLoop capture ts r.2 lastHash acc
      | none => captureLoop capture ts r.2 lastHash acc

/-- `captureFramesForRange(startSecs, endSecs)`: with no video element the
result is the empty list; otherwise record the original position and
paused flag, pause if playing, capture along the sampled stamps, restore
the original position and resume playback iff it was playing. Returns the
kept frames together with the video element's final state. -/
def captureFramesForRange (video? : Option Video) (capture : CaptureFn)
    (startSecs endSecs : ℚ) : List KeptFrame × Option Video :=
  match video? with
  | none => ([], none)
  | some video =>
      let origTime := video.currentTime
      let wasPaused := video.paused
      let v1 := if ¬wasPaused then { video with paused := true } else video
      let stamps := computeFrameTimestamps startSecs endSecs
      let r := captureLoop capture stamps v1 none []
      let v3 := { r.2 with currentTime := origTime }
      let v4 := if ¬wasPaused then { v3 with paused := false } else v3
      (r.1, some v4)

/-!
## Id generation

`randomHex(n)` draws `n / 2` uniformly random bytes and hex-encodes them;
the byte vector is the source of randomness, made explicit here as an
argument. `generateEventId` uses `randomHex(8)` (4 bytes), and
`generateCaptureId` — the generator of every capture and trail entry id —
uses `randomHex(6)` (3 bytes).
-/

/-- One lowercase hex digit, as produced by `Number.toString(16)`. -/
def hexDigitChar (n : Nat) : Char :=
  if n < 10 then Char.ofNat (48 + n) else Char.ofNat (87 + n)

/-- Decode a hex digit character back to its value. -/
def hexVal (c : Char) : Nat :=
  if c.toNat ≥ 87 then c.toNat - 87 else c.toNat - 48

/-- `b.toString(16).padStart(2, '0')`: the two hex characters of a byte. -/
def byteToHex (b : Fin 256) : List Char :=
  [hexDigitChar (b.val / 16), hexDigitChar (b.val % 16)]

/-- `randomHex` applied to an explicit byte vector. -/
def randomHex (bytes : List (Fin 256)) : String :=
  ⟨bytes.flatMap byteToHex⟩

/-- `generateEventId()`: `'EVT-' + randomHex(8)` — 4 random bytes. -/
def generateEventId (bytes : Fin 4 → Fin 256) : String :=
  "EVT-" ++ randomHex (List.ofFn bytes)

/-- `generateCaptureId()`: `'CAP-' + randomHex(6)` — 3 random bytes. -/
def generateCaptureId (bytes : Fin 3 → Fin 256) : String :=
  "CAP-" ++ randomHex (List.ofFn bytes)

/-- All values `generateCaptureId` can produce, one per 3-byte draw. -/
def captureIdSpace : Finset String :=
  Finset.univ.image generateCaptureId

/-- All values `generateEventId` can produce, one per 4-byte draw. -/
def eventIdSpace : Finset String :=
  Finset.univ.image generateEventId

/-- Decode the two hex characters of a byte back to its value. -/
def decodeByte (l : List Char) : Nat :=
  match l with
  | [c1, c2] => 16 * hexVal c1 + hexVal c2
  | _ => 0

/-- The trail invariant relation between adjacent entries: two adjacent
`page` entries never share a url. -/
def pageAdjOk (a b : TrailEntry) : Prop :=
  a.kind = .page → b.kind = .page → a.url ≠ b.url

/-!
## Concrete fixtures used by witnesses and counterexamples
-/

/-- A concrete handler environment (remote collaborators failing). -/
def envA : Env where
  genId := "CAP-0a0a0a"
  genEventId := "EVT-0b0b0b0b"
  genName := "Session — Jan 1, 12:00 AM"
  now := "2026-01-01T00:00:00.000Z"
  loginResult := .error "Invalid credentials"
  remoteSessionSave := .error "Supabase error 500: down"
  remoteEventSave := .error "Supabase error 500: down"

/-- A concrete recorded page visit. -/
def pageA : TrailEntry :=
  pageEntry envA "https://example.com/a" (some "Example A") none none

/-- A concrete logged-in, active, unpaused session state whose trail holds
one page visit. -/
def stateOnePage : ExtState where
  hdb_ext_session := some { username := "alice", role := "editor" }
  hdb_session_active := true
  hdb_session_paused := false
  hdb_session_name := "Session A"
  hdb_current_trail := [pageA]
  hdb_captured_items := []
  lastUrlByTab := fun t => if t = 1 then some "https://example.com/a" else none

/-- A concrete paused session state: the page of `stateOnePage` followed by
a pause marker, with tab 1 remembering the page's url. -/
def stateBeforeResume : ExtState :=
  { stateOnePage with
    hdb_session_paused := true
    hdb_current_trail := [pageA, pauseMarkerEntry envA] }

/-- A concrete active, unpaused state whose trail ends in a pause marker
followed by a resume marker after a page visit. -/
def stateAfterMarkers : ExtState :=
  { stateOnePage with
    hdb_current_trail := [pageA, pauseMarkerEntry envA, resumeMarkerEntry envA] }

/-- A sampling function returning a white pixel everywhere. -/
def whiteSample : SampleFn := fun _ _ => some { r := 255, g := 255, b := 255 }

/-!
## Theorems
-/

/-- C10: `ResumeSession` never fails: in every state it returns ok, clears
the paused flag, appends a resume marker to the trail, and resets the
per-viewport navigation memory, with no precondition check. -/
theorem resumeSession_total (env : Env) (s : ExtState) :
    handleMessage env .resumeSession s =
      (.ok .okUnit,
        { s with
          hdb_session_paused := false
          hdb_current_trail := s.hdb_current_trail ++ [resumeMarkerEntry env]
          lastUrlByTab := fun _ => none }) :=
  rfl

/-- C4: `PauseSession` fails with the state error iff no session is active
at call time; whenever the active flag is set (paused or not) it succeeds,
appends exactly one pause marker and sets the paused flag. -/
theorem pauseSession_spec (env : Env) (s : ExtState) :
    (s.hdb_session_active = false →
      handleMessage env .pauseSession s = (.error "No active session to pause", s)) ∧
    (s.hdb_session_active = true →
      handleMessage env .pauseSession s =
        (.ok .okUnit,
          { s with
            hdb_session_paused := true
            hdb_current_trail := s.hdb_current_trail ++ [pauseMarkerEntry env] })) := by
  constructor <;> intro h <;> simp [handleMessage, h]

/-- Witness for C4 at two concrete states: the empty initial state (no
active session) and an active one-page session. -/
theorem pauseSession_spec_witness :
    handleMessage envA .pauseSession initialState =
      (.error "No active session to pause", initialState) ∧
    handleMessage envA .pauseSession stateOnePage =
      (.ok .okUnit,
        { stateOnePage with
          hdb_session_paused := true
          hdb_current_trail := stateOnePage.hdb_current_trail ++ [pauseMarkerEntry envA] }) :=
  ⟨(pauseSession_spec envA initialState).1 rfl,
   (pauseSession_spec envA stateOnePage).2 rfl⟩

/-- C1: `EndSession` fails with the auth error and mutates nothing when no
user is logged in; with a logged-in user it clears the trail, the captured
items, the session name, both session flags and the per-viewport memory,
and returns ok with the swallowed remote-save outcome — for every remote
outcome, failures included. -/
theorem endSession_spec (env : Env) (s : ExtState) :
    (s.hdb_ext_session = none →
      handleMessage env .endSession s = (.error "Not logged in", s)) ∧
    (∀ u, s.hdb_ext_session = some u →
      handleMessage env .endSession s =
        (.ok (.okEnded env.remoteSessionSave.toOption),
          { s with
            hdb_session_active := false
            hdb_session_paused := false
            hdb_session_name := ""
            hdb_current_trail := []
            hdb_captured_items := []
            lastUrlByTab := fun _ => none })) := by
  refine ⟨fun h => ?_, fun u h => ?_⟩ <;> simp [handleMessage, h]

/-- Witness for C1: the logged-out initial state errors; the logged-in
one-page state is fully cleared and returns ok even though `envA`'s remote
session save fails. -/
theorem endSession_spec_witness :
    handleMessage envA .endSession initialState = (.error "Not logged in", initialState) ∧
    handleMessage envA .endSession stateOnePage =
      (.ok (.okEnded none),
        { stateOnePage with
          hdb_session_active := false
          hdb_session_paused := false
          hdb_session_name := ""
          hdb_current_trail := []
          hdb_captured_items := []
          lastUrlByTab := fun _ => none }) :=
  ⟨(endSession_spec envA initialState).1 rfl,
   (endSession_spec envA stateOnePage).2 { username := "alice", role := "editor" } rfl⟩

/-- C5: after a successful `ResumeSession` the per-viewport memory is the
empty map, and the next completed page load in any viewport — even one
whose URL equals that viewport's last remembered URL from before the
pause — appends a fresh page entry (with `fromUrl = null`). -/
theorem resume_resets_navigation_memory (env env2 : Env) (s : ExtState)
    (tabId : Nat) (url : String) (title favIconUrl : Option String)
    (hactive : s.hdb_session_active = true)
    (hurl : url ≠ "")
    (hc1 : jsStartsWith url "chrome://" = false)
    (hc2 : jsStartsWith url "chrome-extension://" = false)
    (_hprev : s.lastUrlByTab tabId = some url) :
    (handleMessage env .resumeSession s).2.lastUrlByTab = (fun _ => none) ∧
    (navUpdate env2 tabId true url title favIconUrl
        (handleMessage env .resumeSession s).2) =
      { (handleMessage env .resumeSession s).2 with
        lastUrlByTab := Function.update (fun _ => none) tabId (some url)
        hdb_current_trail := (handleMessage env .resumeSession s).2.hdb_current_trail ++
          [pageEntry env2 url title favIconUrl none] } := by
  refine ⟨rfl, ?_⟩
  simp only [handleMessage]
  unfold navUpdate
  simp [hactive, hurl, hc1, hc2, List.getLast?_concat, resumeMarkerEntry]

/-- Witness for C5 at a concrete paused state whose tab-1 memory holds the
very URL that is reloaded right after the resume. -/
theorem resume_resets_navigation_memory_witness :
    (handleMessage envA .resumeSession stateBeforeResume).2.lastUrlByTab = (fun _ => none) ∧
    (navUpdate envA 1 true "https://example.com/a" (some "Example A") none
        (handleMessage envA .resumeSession stateBeforeResume).2) =
      { (handleMessage envA .resumeSession stateBeforeResume).2 with
        lastUrlByTab := Function.update (fun _ => none) 1 (some "https://example.com/a")
        hdb_current_trail :=
          (handleMessage envA .resumeSession stateBeforeResume).2.hdb_current_trail ++
            [pageEntry envA "https://example.com/a" (some "Example A") none none] } :=
  resume_resets_navigation_memory envA envA stateBeforeResume 1
    "https://example.com/a" (some "Example A") none rfl (by decide) (by decide)
    (by decide) rfl

/-- C3 counterexample: with the trail `[page a, pause marker, resume
marker]` and an active unpaused session, a completed load of the very URL
of the most recent page entry is appended (trail grows to length 4) —
the dedup compares against the last trail entry of any kind, which here is
the resume marker, not against the most recent page entry. -/
theorem nav_dedup_markers_counterexample :
    (navUpdate envA 1 true "https://example.com/a" (some "Example A") none
        stateAfterMarkers).hdb_current_trail.length = 4 ∧
    stateAfterMarkers.hdb_current_trail.length = 3 := by
  constructor <;> rfl

/-- C3 as amended: while a session is active and unpaused, a completed
load of a non-internal URL is skipped (only the per-viewport memory is
updated) iff the most recent trail entry of any kind carries this exact
URL; otherwise a page entry is appended. Markers carry no URL, so a page
load arriving right after a marker is always appended. -/
theorem nav_dedup_last_entry (env : Env) (tabId : Nat) (url : String)
    (title favIconUrl : Option String) (s : ExtState)
    (hurl : url ≠ "")
    (hc1 : jsStartsWith url "chrome://" = false)
    (hc2 : jsStartsWith url "chrome-extension://" = false)
    (hactive : s.hdb_session_active = true)
    (hpaused : s.hdb_session_paused = false) :
    (∀ last, s.hdb_current_trail.getLast? = some last → last.url = some url →
      navUpdate env tabId true url title favIconUrl s =
        { s with lastUrlByTab := Function.update s.lastUrlByTab tabId (some url) }) ∧
    ((∀ last, s.hdb_current_trail.getLast? = some last → last.url ≠ some url) →
      navUpdate env tabId true url title favIconUrl s =
        { s with
          lastUrlByTab := Function.update s.lastUrlByTab tabId (some url)
          hdb_current_trail := s.hdb_current_trail ++
            [pageEntry env url title favIconUrl (s.lastUrlByTab tabId)] }) := by
  unfold navUpdate
  simp only [hurl, hc1, hc2, hactive, hpaused]
  constructor
  · intro last hlast hurl2
    simp [hlast, hurl2]
  · intro hne
    cases hlast : s.hdb_current_trail.getLast? with
    | none => simp [hlast]
    | some last => simp [hlast, hne last hlast]

/-- Witness for the amended C3: at a concrete state whose last trail entry
is the page with the reloaded URL, the append is skipped and only the
memory is updated. -/
theorem nav_dedup_last_entry_witness :
    navUpdate envA 1 true "https://example.com/a" (some "Example A") none stateOnePage =
      { stateOnePage with
        lastUrlByTab := Function.update stateOnePage.lastUrlByTab 1
          (some "https://example.com/a") } :=
  (nav_dedup_last_entry envA 1 "https://example.com/a" (some "Example A") none
    stateOnePage (by decide) (by decide) (by decide) rfl rfl).1 pageA rfl rfl

/-- C6 counterexample: `computeFrameTimestamps(10, 10.5)` is `[10]`, not
`[10, 10.5]` — the sub-second branch returns only the start instant. -/
theorem computeFrameTimestamps_subsecond_counterexample :
    computeFrameTimestamps 10 (21 / 2) = [10] ∧
    computeFrameTimestamps 10 (21 / 2) ≠ [10, 21 / 2] := by
  have h : computeFrameTimestamps 10 (21 / 2) = [10] := by
    norm_num [computeFrameTimestamps]
  refine ⟨h, ?_⟩
  rw [h]
  simp

/-- C6 as amended: whenever `endSecs - startSecs < 1`, the sampling
function returns the single instant `[startSecs]`; the end instant is not
included. -/
theorem computeFrameTimestamps_subsecond (startSecs endSecs : ℚ)
    (h : endSecs - startSecs < 1) :
    computeFrameTimestamps startSecs endSecs = [startSecs] := by
  have hm : max 0 (endSecs - startSecs) < 1 := max_lt one_pos h
  simp [computeFrameTimestamps, hm]

/-- Witness for the amended C6 at the spec's own example range. -/
theorem computeFrameTimestamps_subsecond_witness :
    computeFrameTimestamps 10 (21 / 2) = [10] :=
  computeFrameTimestamps_subsecond 10 (21 / 2) (by norm_num)

/-- C7 counterexample: on an all-white image the first fingerprint value is
`(255+255+255) >>> 2 = 191`, which exceeds 63 — the code shifts the *sum*
of the channels, not their mean, so the range claim fails. -/
theorem getFrameHash_mean_counterexample :
    (getFrameHash whiteSample 320 180).head? = some 191 ∧ ¬ (191 ≤ 63) := by
  exact ⟨rfl, by decide⟩

/-- A grid cell whose pixel channels are bytes fingerprints to at most
`765 >>> 2 = 191`; a failed sample fingerprints to 0. -/
theorem cellValue_le_of_bytes (sample : SampleFn) (w h x y : Nat)
    (hb : ∀ i j px, sample i j = some px → px.r ≤ 255 ∧ px.g ≤ 255 ∧ px.b ≤ 255) :
    cellValue sample w h x y ≤ 191 := by
  unfold cellValue
  cases hs : sample (x * w / 4) (y * h / 4) with
  | none => simp
  | some px =>
      have := hb _ _ _ hs
      simp only [Nat.shiftRight_eq_div_pow]
      omega

/-- C7 as amended: the fingerprint is exactly 16 integers, one per cell of
the 4×4 grid (row by row), each equal to the *sum* of the sampled pixel's
three color channels right-shifted by 2 — hence in 0–191 for byte
channels — with a sampling failure for a cell yielding 0 for that cell
instead of aborting. -/
theorem getFrameHash_spec (sample : SampleFn) (w h : Nat)
    (hb : ∀ i j px, sample i j = some px → px.r ≤ 255 ∧ px.g ≤ 255 ∧ px.b ≤ 255) :
    getFrameHash sample w h =
      [cellValue sample w h 0 0, cellValue sample w h 1 0,
       cellValue sample w h 2 0, cellValue sample w h 3 0,
       cellValue sample w h 0 1, cellValue sample w h 1 1,
       cellValue sample w h 2 1, cellValue sample w h 3 1,
       cellValue sample w h 0 2, cellValue sample w h 1 2,
       cellValue sample w h 2 2, cellValue sample w h 3 2,
       cellValue sample w h 0 3, cellValue sample w h 1 3,
       cellValue sample w h 2 3, cellValue sample w h 3 3] ∧
    (getFrameHash sample w h).length = 16 ∧
    ∀ v ∈ getFrameHash sample w h, v ≤ 191 := by
  refine ⟨rfl, rfl, ?_⟩
  intro v hv
  simp only [getFrameHash, List.mem_flatMap, List.mem_map] at hv
  obtain ⟨y, -, x, -, rfl⟩ := hv
  exact cellValue_le_of_bytes sample w h x y hb

/-- Witness for the amended C7 on the all-white image. -/
theorem getFrameHash_spec_witness :
    getFrameHash whiteSample 320 180 =
      [cellValue whiteSample 320 180 0 0, cellValue whiteSample 320 180 1 0,
       cellValue whiteSample 320 180 2 0, cellValue whiteSample 320 180 3 0,
       cellValue whiteSample 320 180 0 1, cellValue whiteSample 320 180 1 1,
       cellValue whiteSample 320 180 2 1, cellValue whiteSample 320 180 3 1,
       cellValue whiteSample 320 180 0 2, cellValue whiteSample 320 180 1 2,
       cellValue whiteSample 320 180 2 2, cellValue whiteSample 320 180 3 2,
       cellValue whiteSample 320 180 0 3, cellValue whiteSample 320 180 1 3,
       cellValue whiteSample 320 180 2 3, cellValue whiteSample 320 180 3 3] ∧
    (getFrameHash whiteSample 320 180).length = 16 ∧
    ∀ v ∈ getFrameHash whiteSample 320 180, v ≤ 191 :=
  getFrameHash_spec whiteSample 320 180 (fun i j px hpx => by
    obtain rfl : Pixel.mk 255 255 255 = px := Option.some.inj hpx
    exact ⟨by norm_num, by norm_num, by norm_num⟩)

/-- The capture loop only seeks: it never touches the paused flag. -/
theorem captureLoop_paused (capture : CaptureFn) (ts : List ℚ) (v : Video)
    (lastHash : Option (List Nat)) (acc : List KeptFrame) :
    (captureLoop capture ts v lastHash acc).2.paused = v.paused := by
  induction ts generalizing v lastHash acc with
  | nil => rfl
  | cons t ts ih =>
      unfold captureLoop captureVideoFrame
      cases capture t with
      | none => exact ih _ _ _
      | some frame =>
          by_cases hk : lastHash = none ∨ ¬ hashesAreSimilar lastHash (some frame.hash)
          · simp only [hk, if_pos]
            exact ih _ _ _
          · simp only [hk, if_neg, not_false_eq_true]
            exact ih _ _ _

/-- C8: with no video source the capture returns the empty frame list (and
no error); with a source it restores the original playback position after
all instants are processed and leaves the paused flag as it was — i.e. it
resumes playback iff the video was playing before the capture began. -/
theorem captureFramesForRange_restores (capture : CaptureFn)
    (startSecs endSecs : ℚ) :
    captureFramesForRange none capture startSecs endSecs = ([], none) ∧
    ∀ v : Video,
      (captureFramesForRange (some v) capture startSecs endSecs).2 =
        some { currentTime := v.currentTime, paused := v.paused } := by
  refine ⟨rfl, fun v => ?_⟩
  unfold captureFramesForRange
  cases hp : v.paused with
  | true =>
      simp only [hp, Bool.not_true, Bool.false_eq_true, if_false]
      have := captureLoop_paused capture (computeFrameTimestamps startSecs endSecs)
        v none []
      rw [hp] at this
      simp [this]
  | false =>
      simp only [hp, Bool.not_false, if_true]
      simp

/-- Hex digits decode back to their value. -/
theorem hexVal_hexDigitChar {n : Nat} (h : n < 16) :
    hexVal (hexDigitChar n) = n := by
  interval_cases n <;> decide

/-- The two-character hex encoding of a byte is injective. -/
theorem byteToHex_inj {a b : Fin 256} (h : byteToHex a = byteToHex b) :
    a = b := by
  simp only [byteToHex, List.cons.injEq, and_true] at h
  obtain ⟨h1, h2⟩ := h
  have ha := a.isLt
  have hb := b.isLt
  have e1 : a.val / 16 = b.val / 16 := by
    have := congrArg hexVal h1
    rwa [hexVal_hexDigitChar (by omega), hexVal_hexDigitChar (by omega)] at this
  have e2 : a.val % 16 = b.val % 16 := by
    have := congrArg hexVal h2
    rwa [hexVal_hexDigitChar (by omega), hexVal_hexDigitChar (by omega)] at this
  exact Fin.ext (by omega)

/-- Hex-encoding a byte list (fixed width two) is injective. -/
theorem flatMap_byteToHex_inj : ∀ {l1 l2 : List (Fin 256)},
    l1.flatMap byteToHex = l2.flatMap byteToHex → l1 = l2 := by
  intro l1
  induction l1 with
  | nil =>
      intro l2 h
      cases l2 with
      | nil => rfl
      | cons b bs => simp [byteToHex] at h
  | cons a as ih =>
      intro l2 h
      cases l2 with
      | nil => simp [byteToHex] at h
      | cons b bs =>
          simp only [List.flatMap_cons, byteToHex, List.cons_append,
            List.nil_append, List.cons.injEq] at h
          obtain ⟨h1, h2, h3⟩ := h
          have hb : a = b := byteToHex_inj (by simp [byteToHex, h1, h2])
          subst hb
          rw [ih h3]

/-- Distinct 3-byte draws give distinct capture ids. -/
theorem generateCaptureId_inj : Function.Injective generateCaptureId := by
  intro a b h
  have hd : "CAP-".data ++ (List.ofFn a).flatMap byteToHex =
      "CAP-".data ++ (List.ofFn b).flatMap byteToHex := congrArg String.data h
  have hfn : List.ofFn a = List.ofFn b :=
    flatMap_byteToHex_inj (List.append_cancel_left hd)
  exact List.ofFn_injective hfn

/-- Distinct 4-byte draws give distinct event ids. -/
theorem generateEventId_inj : Function.Injective generateEventId := by
  intro a b h
  have hd : "EVT-".data ++ (List.ofFn a).flatMap byteToHex =
      "EVT-".data ++ (List.ofFn b).flatMap byteToHex := congrArg String.data h
  have hfn : List.ofFn a = List.ofFn b :=
    flatMap_byteToHex_inj (List.append_cancel_left hd)
  exact List.ofFn_injective hfn

/-- C9 counterexample: the space of values `generateCaptureId` — the
generator of every capture and trail entry id — can produce has fewer than
`2^32` elements (it has at most `256^3 = 2^24`). -/
theorem captureId_randomness_counterexample : captureIdSpace.card < 2 ^ 32 := by
  have h1 : captureIdSpace.card ≤ Fintype.card (Fin 3 → Fin 256) := by
    rw [captureIdSpace]
    exact Finset.card_image_le.trans_eq Finset.card_univ
  have h2 : Fintype.card (Fin 3 → Fin 256) = 256 ^ 3 := by
    rw [Fintype.card_fun, Fintype.card_fin, Fintype.card_fin]
  rw [h2] at h1
  calc captureIdSpace.card ≤ 256 ^ 3 := h1
    _ < 2 ^ 32 := by norm_num

/-- C9 as amended: capture/trail entry ids are drawn from a space of
exactly `2^24` equally likely values (24 bits of randomness beyond the
fixed `CAP-` prefix), while event ids are drawn from `2^32` values
(32 bits beyond `EVT-`). -/
theorem idSpace_cards :
    captureIdSpace.card = 2 ^ 24 ∧ eventIdSpace.card = 2 ^ 32 := by
  constructor
  · rw [captureIdSpace, Finset.card_image_of_injective _ generateCaptureId_inj,
      Finset.card_univ, Fintype.card_fun, Fintype.card_fin, Fintype.card_fin]
    norm_num
  · rw [eventIdSpace, Finset.card_image_of_injective _ generateEventId_inj,
      Finset.card_univ, Fintype.card_fun, Fintype.card_fin, Fintype.card_fin]
    norm_num

/-- Appending an entry compatible with the current last entry preserves the
adjacent-pages invariant. -/
theorem chain'_append_one {l : List TrailEntry} {e : TrailEntry}
    (hl : List.Chain' pageAdjOk l)
    (he : ∀ x, l.getLast? = some x → pageAdjOk x e) :
    List.Chain' pageAdjOk (l ++ [e]) := by
  rw [List.chain'_append]
  refine ⟨hl, List.chain'_singleton e, ?_⟩
  intro x hx y hy
  simp only [List.head?_cons, Option.mem_def, Option.some.injEq] at hy
  subst hy
  exact he x hx

/-- Every atomic step of the background worker preserves the
adjacent-pages invariant of the trail. -/
theorem step_preserves_pageAdj {s s' : ExtState} (h : Step s s')
    (hc : List.Chain' pageAdjOk s.hdb_current_trail) :
    List.Chain' pageAdjOk s'.hdb_current_trail := by
  cases h with
  | msg env m s =>
      cases m with
      | getState => exact hc
      | login u p =>
          cases hl : env.loginResult with
          | error e => simpa [handleMessage, hl] using hc
          | ok user => simpa [handleMessage, hl] using hc
      | logout => simp [handleMessage]
      | startSession name => simp [handleMessage]
      | renameSession name => exact hc
      | endSession =>
          cases hs : s.hdb_ext_session with
          | none => simpa [handleMessage, hs] using hc
          | some u => simp [handleMessage, hs]
      | captureText a b c d e => exact hc
      | captureUrl a b c => exact hc
      | deleteCaptured id => exact hc
      | saveToDB id =>
          cases hs : s.hdb_ext_session with
          | none => simpa [handleMessage, hs] using hc
          | some u =>
              cases hf : s.hdb_captured_items.find? (fun i => i.id = id) with
              | none => simpa [handleMessage, hs, hf] using hc
              | some it =>
                  cases hr : env.remoteEventSave with
                  | error e => simpa [handleMessage, hs, hf, hr] using hc
                  | ok sv => simpa [handleMessage, hs, hf, hr] using hc
      | pauseSession =>
          by_cases ha : s.hdb_session_active = true
          · simp only [handleMessage, ha, if_true]
            refine chain'_append_one hc ?_
            intro x hx h1 h2
            simp [pauseMarkerEntry] at h2
          · simp only [handleMessage, ha, if_false]
            simpa using hc
      | resumeSession =>
          refine chain'_append_one hc ?_
          intro x hx h1 h2
          simp [resumeMarkerEntry] at h2
      | clearTrail => simp [handleMessage]
  | nav env tabId complete url title favIconUrl s =>
      simp only [navUpdate]
      split
      · exact hc
      split
      · exact hc
      split
      · exact hc
      split
      next last heq =>
        split
        next => exact hc
        next hne =>
          refine chain'_append_one hc ?_
          intro x hx h1 h2
          have hxl : x = last := by
            rw [heq] at hx
            exact (Option.some.inj hx).symm
          subst hxl
          simp only [pageEntry, ne_eq]
          intro hcontra
          exact hne (by rw [← hcontra])
      next heq =>
        refine chain'_append_one hc ?_
        intro x hx
        rw [heq] at hx
        exact Option.noConfusion hx

/-- C2: in every state reachable from installation by any sequence of
commands and navigation events, no two adjacent page entries of the trail
share a url. -/
theorem trail_no_adjacent_dup_pages (s : ExtState) (hs : Reachable s) :
    List.Chain' pageAdjOk s.hdb_current_trail := by
  have hs' : Relation.ReflTransGen Step initialState s := hs
  clear hs
  induction hs' with
  | refl => exact List.chain'_nil
  | tail hab hbc ih => exact step_preserves_pageAdj hbc ih

/-- Witness for C2 at the reachable initial state. -/
theorem trail_no_adjacent_dup_pages_witness :
    List.Chain' pageAdjOk initialState.hdb_current_trail :=
  trail_no_adjacent_dup_pages initialState Relation.ReflTransGen.refl
